import Mathlib

/-!
Verification development for `gerador_csv.py`, an interactive CSV generator
producing randomized pt-BR flavored data.

Modelling conventions:
* Python's `random` primitives are modelled by pure functions taking an
  explicit draw argument (`r : Nat`), or an entropy stream `e : Nat → Nat`
  when a generator consumes several draws.  `random.randint(a, b)` becomes
  `a + r % (b - a + 1)` (uniform over `[a, b]`, every value attainable);
  `random.random()` becomes `(r % 2^53) / 2^53` (CPython returns a 53-bit
  dyadic rational in `[0, 1)`); `random.choice(xs)` indexes `xs` at
  `r % xs.length` and models the `IndexError` on an empty sequence as `none`.
* Python floats are idealized as rationals (`ℚ`); `round` is half-even
  rounding, as in Python.
* Fallible operations (Python exceptions) return `Option`, with `none`
  standing for a raised exception.
* The optional Faker enrichment provider is absent (`_FAKE = None` path), so
  every generator takes the fallback branch, exactly as in the source when
  Faker is not installed.
-/

namespace GeradorCsv

/-! ## Random primitives (models of the `random` module) -/

/-- Model of `random.randint(a, b)`: uniform integer in `[a, b]` inclusive;
raises (`none`) when `a > b`. -/
def randint (a b : Int) (r : Nat) : Option Int :=
  if a ≤ b then some (a + (r : Int) % (b - a + 1)) else none

/-- Model of `random.choice(xs)`: picks an element of `xs`; raises
(`none`) on an empty sequence. -/
def pychoice {α : Type} (xs : List α) (r : Nat) : Option α :=
  xs.get? (r % xs.length)

/-- Model of `random.random()`: a 53-bit dyadic rational in `[0, 1)`. -/
def random01 (r : Nat) : ℚ :=
  ((r % 2 ^ 53 : Nat) : ℚ) / 2 ^ 53

/-! ## Decimal rendering helpers (models of `str` / format specifiers) -/

/-- The decimal digit character for `m % 10`-style values. -/
def digitChar (m : Nat) : Char :=
  if m = 0 then '0' else if m = 1 then '1' else if m = 2 then '2'
  else if m = 3 then '3' else if m = 4 then '4' else if m = 5 then '5'
  else if m = 6 then '6' else if m = 7 then '7' else if m = 8 then '8' else '9'

/-- Exactly `w` decimal digits of `m`, zero padded (models `{:0wd}` for
`m < 10^w`). -/
def padDigits : Nat → Nat → List Char
  | 0, _ => []
  | w + 1, m => padDigits w (m / 10) ++ [digitChar (m % 10)]

/-- Unpadded decimal digits of `m` (models `str(m)` for naturals); the first
argument is recursion fuel, always called with `fuel > m`. -/
def natToDigitsAux : Nat → Nat → List Char
  | 0, _ => []
  | fuel + 1, m => if m < 10 then [digitChar m] else natToDigitsAux fuel (m / 10) ++ [digitChar (m % 10)]

/-- Unpadded decimal digits of `m`, models `str(m)`. -/
def natToDigits (m : Nat) : List Char :=
  natToDigitsAux (m + 1) m

/-- Numeric value of a list of decimal digit characters (used to state what a
rendered decimal string denotes). -/
def charsToNat (cs : List Char) : Nat :=
  cs.foldl (fun a c => a * 10 + (c.toNat - 48)) 0

/-! ## Fallback data pools (module-level constant lists in the source) -/

def FIRST_NAMES : List String :=
  ["Gabriel", "Maria", "Ana", "João", "Pedro", "Lucas", "Julia", "Mariana", "Rafael", "Beatriz"]

def LAST_NAMES : List String :=
  ["Silva", "Santos", "Oliveira", "Souza", "Pereira", "Lima", "Carvalho", "Gomes", "Almeida", "Ferreira"]

def CITIES : List String :=
  ["São Paulo", "Rio de Janeiro", "Cuiabá", "Belo Horizonte", "Curitiba", "Salvador", "Fortaleza", "Recife"]

def STATES : List String :=
  ["SP", "RJ", "MT", "MG", "PR", "BA", "CE", "PE"]

def COMPANIES : List String :=
  ["InovaTech", "Alpha Sistemas", "Data+Brasil", "Azul Digital", "TecnoSul", "Norte Cloud"]

def JOBS : List String :=
  ["Analista de Sistemas", "Engenheiro de Software", "Suporte Técnico", "Cientista de Dados", "DevOps"]

def DOMAINS : List String :=
  ["exemplo.com", "empresa.com.br", "corp.br", "mail.com"]

/-! ## CPF generator (`_cpf_dv`, `rand_cpf`) -/

/-- `_cpf_dv(digs)`: the modulo-11 check digit.  Weights are
`list(range(len(digs) + 1, 1, -1))`, i.e. `len+1` down to `2`; the products
are summed, taken mod 11; a remainder `< 2` gives 0, otherwise `11 - resto`. -/
def _cpf_dv (digs : List Nat) : Nat :=
  let peso := (List.range' 2 digs.length).reverse
  let soma := (List.zipWith (fun d p => d * p) digs peso).sum
  let resto := soma % 11
  if resto < 2 then 0 else 11 - resto

/-- The check-digit rule exactly as the spec words it: weight digit `i` by
`len(sequence) + 1 - i` (descending from `len+1` at the first digit down to
`2` at the last), sum, mod 11, yield 0 when the remainder is `< 2` and
`11 - remainder` otherwise.  Stated separately from `_cpf_dv` so the code's
rule can be proved to refine the spec's wording. -/
def cpf_dv_fromSpec (digs : List Nat) : Nat :=
  let n := digs.length
  let soma := ((List.range n).map (fun i => digs.getD i 0 * (n + 1 - i))).sum
  let resto := soma % 11
  if resto < 2 then 0 else 11 - resto

/-- The 11 digits of a generated CPF: 9 random base digits
(`random.randint(0, 9)` = draw mod 10), then the two check digits. -/
def rand_cpf_nums (e : Nat → Nat) : List Nat :=
  let base := (List.range 9).map (fun i => e i % 10)
  let dv1 := _cpf_dv base
  let dv2 := _cpf_dv (base ++ [dv1])
  base ++ [dv1, dv2]

/-- `rand_cpf(formatado)`: the generated CPF string, grouped
`DDD.DDD.DDD-DD` when `formatado` is true. -/
def rand_cpf (formatado : Bool) (e : Nat → Nat) : String :=
  let nums := rand_cpf_nums e
  if formatado then
    String.mk ((nums.take 3).map digitChar) ++ "." ++
    String.mk (((nums.drop 3).take 3).map digitChar) ++ "." ++
    String.mk (((nums.drop 6).take 3).map digitChar) ++ "-" ++
    String.mk ((nums.drop 9).map digitChar)
  else
    String.mk (nums.map digitChar)

/-! ## Temporal generators (`rand_date`, `rand_datetime`) -/

/-- Proleptic Gregorian leap-year rule used by `datetime`. -/
def isLeap (y : Int) : Bool :=
  y % 4 == 0 && (y % 100 != 0 || y % 400 == 0)

/-- Number of days in year `y`; equals
`(datetime(y,12,31) - datetime(y,1,1)).days + 1`. -/
def daysInYear (y : Int) : Nat :=
  if isLeap y then 366 else 365

/-- The month lengths of year `y`, as `datetime` computes calendar days. -/
def monthLengths (y : Int) : List Nat :=
  [31, if isLeap y then 29 else 28, 31, 30, 31, 30, 31, 31, 30, 31, 30, 31]

/-- Convert a 0-based day-of-year offset into a (1-based month, 1-based day)
pair given the month lengths; models `datetime(y,1,1) + timedelta(days=k)`. -/
def dayToMD : List Nat → Nat → Nat × Nat
  | [], d => (1, d + 1)
  | len :: rest, d =>
    if d < len then (1, d + 1)
    else
      let md := dayToMD rest (d - len)
      (md.1 + 1, md.2)

/-- Day count of month `m` (1-based) of year `y`. -/
def daysInMonth (y : Int) (m : Nat) : Nat :=
  (monthLengths y).getD (m - 1) 0

/-- `strftime("%Y-%m-%d")` rendering (year zero-padded to 4 digits, as CPython
renders years in `[1, 9999]`). -/
def formatDate (y : Int) (m d : Nat) : String :=
  String.mk (padDigits 4 y.toNat) ++ "-" ++ String.mk (padDigits 2 m) ++ "-" ++
    String.mk (padDigits 2 d)

/-- `strftime("%Y-%m-%d %H:%M:%S")` rendering. -/
def formatDateTime (y : Int) (m d hh mi ss : Nat) : String :=
  formatDate y m d ++ " " ++ String.mk (padDigits 2 hh) ++ ":" ++
    String.mk (padDigits 2 mi) ++ ":" ++ String.mk (padDigits 2 ss)

/-- `rand_date(year_start, year_end)`: a uniformly drawn year, then a
uniformly drawn day offset within that year (`delta.days` is
`daysInYear y - 1`), rendered `YYYY-MM-DD`.  `none` models the exceptions:
`randint` with an inverted range, or `datetime(y, 1, 1)` outside
`[MINYEAR, MAXYEAR] = [1, 9999]`. -/
def rand_date (year_start year_end : Int) (r1 r2 : Nat) : Option String := do
  let y ← randint year_start year_end r1
  if y < 1 ∨ 9999 < y then none
  else
    let k ← randint 0 ((daysInYear y : Int) - 1) r2
    let md := dayToMD (monthLengths y) k.toNat
    pure (formatDate y md.1 md.2)

/-- `rand_datetime(year_start, year_end)`: a uniformly drawn year, then a
uniformly drawn second offset in `[0, daysInYear * 86400 - 1]`
(`int((end - start).total_seconds())` for `start = Jan 1 00:00:00` and
`end = Dec 31 23:59:59`), rendered `YYYY-MM-DD HH:MM:SS`. -/
def rand_datetime (year_start year_end : Int) (r1 r2 : Nat) : Option String := do
  let y ← randint year_start year_end r1
  if y < 1 ∨ 9999 < y then none
  else
    let total := (daysInYear y : Int) * 86400 - 1
    let off ← randint 0 total r2
    let o := off.toNat
    let md := dayToMD (monthLengths y) (o / 86400)
    let s := o % 86400
    pure (formatDateTime y md.1 md.2 (s / 3600) (s % 3600 / 60) (s % 60))

/-! ## Numeric generators -/

/-- `rand_int(min_val, max_val)`: `random.randint` over the inclusive range. -/
def rand_int (min_val max_val : Int) (r : Nat) : Option Int :=
  randint min_val max_val r

/-- Python's `round`-to-integer: round half to even (banker's rounding). -/
def roundHalfEven (q : ℚ) : Int :=
  let n := ⌊q⌋
  let frac := q - (n : ℚ)
  if frac < 1 / 2 then n
  else if 1 / 2 < frac then n + 1
  else if n % 2 = 0 then n else n + 1

/-- Python's `round(q, d)` for `d ≥ 0`, on exact rationals. -/
def pyRound (q : ℚ) (d : Nat) : ℚ :=
  (roundHalfEven (q * 10 ^ d) : ℚ) / 10 ^ d

/-- `rand_float(min_val, max_val, decimals)`: swaps an inverted range, draws
`random.random() * (max - min) + min`, rounds to `decimals` places. -/
def rand_float (min_val max_val : ℚ) (decimals : Nat) (r : Nat) : ℚ :=
  let mm := if min_val > max_val then (max_val, min_val) else (min_val, max_val)
  let val := random01 r * (mm.2 - mm.1) + mm.1
  pyRound val decimals

/-- `rand_bool()`: `random.choice([True, False])`. -/
def rand_bool (r : Nat) : Option Bool :=
  pychoice [true, false] r

/-- Fixed-point rendering with exactly `d` fractional digits: models the
format specifier `f"{x:.{d}f}"` on exact rationals (for `d = 0` Python
renders no decimal point). -/
def formatFixed (q : ℚ) (d : Nat) : String :=
  let n := roundHalfEven (q * 10 ^ d)
  let sign := if n < 0 then "-" else ""
  let m := n.natAbs
  let ip := m / 10 ^ d
  let fp := m % 10 ^ d
  if d = 0 then sign ++ String.mk (natToDigits ip)
  else sign ++ String.mk (natToDigits ip) ++ "." ++ String.mk (padDigits d fp)

/-- Numeric value of an unsigned fixed-point character sequence: the integer
part before the dot plus the fractional digits scaled by their count. -/
def parseBody (cs : List Char) : ℚ :=
  (charsToNat (cs.takeWhile (fun c => c ≠ '.')) : ℚ) +
    (charsToNat ((cs.dropWhile (fun c => c ≠ '.')).drop 1) : ℚ) /
      10 ^ ((cs.dropWhile (fun c => c ≠ '.')).drop 1).length

/-- Parse back a fixed-point decimal string (possibly signed, possibly with no
decimal point); used to state which rational number a rendered string
denotes. -/
def parseFixed (s : String) : ℚ :=
  match s.data with
  | [] => 0
  | c :: rest => if c = '-' then -(parseBody rest) else parseBody (c :: rest)

/-! ## Identifier / contact / text generators -/

/-- Hexadecimal digit characters. -/
def hexDigit (m : Nat) : Char :=
  if m = 0 then '0' else if m = 1 then '1' else if m = 2 then '2'
  else if m = 3 then '3' else if m = 4 then '4' else if m = 5 then '5'
  else if m = 6 then '6' else if m = 7 then '7' else if m = 8 then '8'
  else if m = 9 then '9' else if m = 10 then 'a' else if m = 11 then 'b'
  else if m = 12 then 'c' else if m = 13 then 'd' else if m = 14 then 'e' else 'f'

/-- Two hex characters of a byte. -/
def byteHex (m : Nat) : List Char :=
  [hexDigit (m / 16 % 16), hexDigit (m % 16)]

/-- Model of `str(uuid.uuid4())`: 16 bytes from `os.urandom`, with the
version nibble forced to 4 (`(b6 & 0x0f) | 0x40 = b6 % 16 + 64`) and the
variant bits forced to 10 (`(b8 & 0x3f) | 0x80 = b8 % 64 + 128`), rendered
as lowercase hex grouped 8-4-4-4-12. -/
def uuid4String (e : Nat → Nat) : String :=
  let b : Nat → Nat := fun i => e i % 256
  let b6 := b 6 % 16 + 64
  let b8 := b 8 % 64 + 128
  String.mk
    ((([b 0, b 1, b 2, b 3].map byteHex).flatten) ++ ['-'] ++
     (([b 4, b 5].map byteHex).flatten) ++ ['-'] ++
     (([b6, b 7].map byteHex).flatten) ++ ['-'] ++
     (([b8, b 9].map byteHex).flatten) ++ ['-'] ++
     (([b 10, b 11, b 12, b 13, b 14, b 15].map byteHex).flatten))

/-- `rand_uuid()`: a fresh UUID v4 string; its entropy comes from
`os.urandom`, not from the seeded `random` module. -/
def rand_uuid (e : Nat → Nat) : String :=
  uuid4String e

def rand_first_name (r : Nat) : Option String :=
  pychoice FIRST_NAMES r

def rand_last_name (r : Nat) : Option String :=
  pychoice LAST_NAMES r

def rand_full_name (r1 r2 : Nat) : Option String := do
  let fn ← rand_first_name r1
  let ln ← rand_last_name r2
  pure (fn ++ " " ++ ln)

/-- `rand_email()` fallback: `f"{fn}.{ln}@{dom}"` with lowercased names.
(`String.toLower` lowercases the ASCII letters of the name pools.) -/
def rand_email (r1 r2 r3 : Nat) : Option String := do
  let fn ← rand_first_name r1
  let ln ← rand_last_name r2
  let dom ← pychoice DOMAINS r3
  pure (fn.toLower ++ "." ++ ln.toLower ++ "@" ++ dom)

/-- `rand_phone()`: `(DD) DDDDD-DDDD` with area code in `[11, 99]`, first
block in `[90000, 99999]` (`{:05d}`), suffix in `[0, 9999]` (`{:04d}`). -/
def rand_phone (r1 r2 r3 : Nat) : Option String := do
  let ddd ← randint 11 99 r1
  let p ← randint 90000 99999 r2
  let suf ← randint 0 9999 r3
  pure ("(" ++ String.mk (natToDigits ddd.toNat) ++ ") " ++
    String.mk (padDigits 5 p.toNat) ++ "-" ++ String.mk (padDigits 4 suf.toNat))

def rand_company (r : Nat) : Option String :=
  pychoice COMPANIES r

def rand_job (r : Nat) : Option String :=
  pychoice JOBS r

def rand_city (r : Nat) : Option String :=
  pychoice CITIES r

def rand_state (r : Nat) : Option String :=
  pychoice STATES r

/-- `rand_address()` fallback:
`f"Rua {rand_last_name()}, {num}, {rand_city()} - {rand_state()}"`. -/
def rand_address (r1 r2 r3 r4 : Nat) : Option String := do
  let num ← randint 1 9999 r1
  let ln ← rand_last_name r2
  let city ← rand_city r3
  let st ← rand_state r4
  pure ("Rua " ++ ln ++ ", " ++ String.mk (natToDigits num.toNat) ++ ", " ++
    city ++ " - " ++ st)

/-- `rand_cep(formatado)`: 8 random digits (`randint(0,9)` = draw mod 10),
optionally formatted `DDDDD-DDD`. -/
def rand_cep (formatado : Bool) (e : Nat → Nat) : String :=
  let d := (List.range 8).map (fun i => e i % 10)
  if formatado then
    String.mk ((d.take 5).map digitChar) ++ "-" ++ String.mk ((d.drop 5).map digitChar)
  else
    String.mk (d.map digitChar)

/-- The filler vocabulary `LOREM_WORDS` (the source's space-joined literal,
split on spaces). -/
def LOREM_WORDS : List String :=
  ["lorem", "ipsum", "dolor", "sit", "amet", "consectetur", "adipiscing", "elit",
   "sed", "do", "eiusmod", "tempor", "incididunt", "ut", "labore",
   "et", "dolore", "magna", "aliqua", "ut", "enim", "ad", "minim", "veniam",
   "quis", "nostrud", "exercitation", "ullamco", "laboris", "nisi", "ut", "aliquip",
   "ex", "ea", "commodo", "consequat", "duis", "aute", "irure", "dolor", "in",
   "reprehenderit", "in", "voluptate", "velit", "esse", "cillum", "dolore", "eu",
   "fugiat", "nulla", "pariatur", "excepteur", "sint", "occaecat", "cupidatat",
   "non", "proident", "sunt", "in", "culpa", "qui", "officia", "deserunt",
   "mollit", "anim", "id", "est", "laborum"]

/-- Python `str.capitalize()`: first character uppercased, the rest
lowercased. -/
def pyCapitalize (s : String) : String :=
  match s.data with
  | [] => ""
  | c :: rest => String.mk (c.toUpper :: rest.map Char.toLower)

/-- `rand_sentence()`: 4-12 words sampled with replacement from
`LOREM_WORDS`, space-joined, capitalized, terminated with a period. -/
def rand_sentence (e : Nat → Nat) : Option String := do
  let n ← randint 4 12 (e 0)
  let words ← (List.range n.toNat).mapM (fun i => pychoice LOREM_WORDS (e (i + 1)))
  pure (pyCapitalize (String.intercalate " " words) ++ ".")

/-- `rand_url()` fallback:
`f"https://{host}{randint(1,999)}.{tld}/{path}"`. -/
def rand_url (r1 r2 r3 r4 : Nat) : Option String := do
  let host ← pychoice ["site", "app", "portal", "blog"] r1
  let tld ← pychoice ["com", "com.br", "net", "org"] r2
  let path ← pychoice ["home", "produto", "contato", "sobre"] r3
  let n ← randint 1 999 r4
  pure ("https://" ++ host ++ String.mk (natToDigits n.toNat) ++ "." ++ tld ++ "/" ++ path)

/-! ## Column type registry -/

/-- `ColumnType(code, label, needs_config)`. -/
structure ColumnType where
  code : String
  label : String
  needs_config : Bool := false
deriving DecidableEq

/-- The ordered registry `COLUMN_TYPES`. -/
def COLUMN_TYPES : List ColumnType :=
  [⟨"full_name", "Nome completo", false⟩,
   ⟨"first_name", "Nome", false⟩,
   ⟨"last_name", "Sobrenome", false⟩,
   ⟨"email", "E-mail", false⟩,
   ⟨"phone", "Telefone (BR)", false⟩,
   ⟨"cpf", "CPF (falso)", false⟩,
   ⟨"address", "Endereço completo", false⟩,
   ⟨"city", "Cidade", false⟩,
   ⟨"state", "Estado (UF)", false⟩,
   ⟨"cep", "CEP (falso)", false⟩,
   ⟨"date", "Data (YYYY-MM-DD)", true⟩,
   ⟨"datetime", "Data e Hora (YYYY-MM-DD HH:MM:SS)", true⟩,
   ⟨"int", "Número inteiro", true⟩,
   ⟨"float", "Número decimal", true⟩,
   ⟨"bool", "Booleano", false⟩,
   ⟨"uuid", "UUID v4", false⟩,
   ⟨"company", "Empresa", false⟩,
   ⟨"job", "Cargo (trabalho)", false⟩,
   ⟨"url", "URL", false⟩,
   ⟨"sentence", "Texto curto (lorem)", false⟩,
   ⟨"picklist", "Lista de opções (categorias)", true⟩,
   ⟨"price", "Preço monetário", true⟩]

/-- The codes the registry (and the factory dispatch) knows. -/
def knownCodes : List String :=
  COLUMN_TYPES.map ColumnType.code

/-! ## Column configuration (`dict` values) -/

/-- A value stored in a configuration dict: an int, a float, or a list of
strings. -/
inductive CfgVal where
  | int (z : Int)
  | float (q : ℚ)
  | strList (xs : List String)
deriving DecidableEq

/-- A configuration dict, as an association list keyed by option name. -/
abbrev Config := List (String × CfgVal)

/-- `cfg.get(k, d)`. -/
def cfgGetD (cfg : Config) (k : String) (d : CfgVal) : CfgVal :=
  (cfg.lookup k).getD d

/-- Reading a config value where Python expects an integer (`randint` bound,
format width, year); a non-integer raises (`none`). -/
def asInt : CfgVal → Option Int
  | .int z => some z
  | _ => none

/-- Reading a config value where Python does float arithmetic (ints coerce). -/
def asFloat : CfgVal → Option ℚ
  | .int z => some (z : ℚ)
  | .float q => some q
  | _ => none

/-- Reading a config value where Python expects a sequence. -/
def asStrList : CfgVal → Option (List String)
  | .strList xs => some xs
  | _ => none

/-! ## Configuration collector (`get_column_config`) -/

/-- Whitespace test for Python's `str.strip()`. -/
def isSpaceChar (c : Char) : Bool :=
  c = ' ' || c = '\t' || c = '\n' || c = '\r'

/-- Python `str.strip()`. -/
def pyStrip (cs : List Char) : List Char :=
  ((cs.dropWhile isSpaceChar).reverse.dropWhile isSpaceChar).reverse

/-- Python `str.split(",")`: split on every comma, keeping empty pieces. -/
def pySplitComma : List Char → List (List Char)
  | [] => [[]]
  | c :: rest =>
    match pySplitComma rest with
    | [] => [[]]
    | w :: ws => if c = ',' then [] :: w :: ws else (c :: w) :: ws

/-- The validated answers a user gives to the collector's prompts (one field
per prompt; `prompt_int` / `prompt_float` loop until a valid number is
entered, so the fields hold arbitrary already-validated numbers). -/
structure PromptInputs where
  intMin : Int
  intMax : Int
  fltMin : ℚ
  fltMax : ℚ
  fltDec : Nat
  dateYearStart : Int
  dateYearEnd : Int
  dtYearStart : Int
  dtYearEnd : Int
  picklistRaw : String
  priceMin : ℚ
  priceMax : ℚ
  priceDec : Nat

/-- `get_column_config(col_type_code)`: builds the per-type config dict from
the prompted values, swapping inverted ranges; the picklist options are the
comma-separated tokens, stripped, with empty tokens dropped. -/
def get_column_config (col_type_code : String) (inp : PromptInputs) : Config :=
  if col_type_code = "int" then
    if inp.intMin > inp.intMax then
      [("min", .int inp.intMax), ("max", .int inp.intMin)]
    else
      [("min", .int inp.intMin), ("max", .int inp.intMax)]
  else if col_type_code = "float" then
    if inp.fltMin > inp.fltMax then
      [("min", .float inp.fltMax), ("max", .float inp.fltMin), ("decimals", .int inp.fltDec)]
    else
      [("min", .float inp.fltMin), ("max", .float inp.fltMax), ("decimals", .int inp.fltDec)]
  else if col_type_code = "date" then
    if inp.dateYearStart > inp.dateYearEnd then
      [("year_start", .int inp.dateYearEnd), ("year_end", .int inp.dateYearStart)]
    else
      [("year_start", .int inp.dateYearStart), ("year_end", .int inp.dateYearEnd)]
  else if col_type_code = "datetime" then
    if inp.dtYearStart > inp.dtYearEnd then
      [("year_start", .int inp.dtYearEnd), ("year_end", .int inp.dtYearStart)]
    else
      [("year_start", .int inp.dtYearStart), ("year_end", .int inp.dtYearEnd)]
  else if col_type_code = "picklist" then
    [("options", .strList
      (((pySplitComma inp.picklistRaw.data).map (fun w => String.mk (pyStrip w))).filter
        (fun s => s ≠ "")))]
  else if col_type_code = "price" then
    if inp.priceMin > inp.priceMax then
      [("min", .float inp.priceMax), ("max", .float inp.priceMin), ("decimals", .int inp.priceDec)]
    else
      [("min", .float inp.priceMin), ("max", .float inp.priceMax), ("decimals", .int inp.priceDec)]
  else
    []

/-! ## Generator factory (`build_generator`)

A Python closure is represented as a `Gen` value: one constructor per
`return lambda` site, carrying exactly the values the closure captured at
construction time.  `runGen` is the call semantics of the closure (one
invocation, drawing fresh randomness from the stream `e`). -/

inductive Gen where
  | full_name | first_name | last_name | email | phone | cpf
  | address | city | state | cep
  | date (ys ye : CfgVal)
  | datetime (ys ye : CfgVal)
  | int (mn mx : CfgVal)
  | float (mn mx dec : CfgVal)
  | bool | uuid | company | job | url | sentence
  | picklist (options : CfgVal)
  | price (mn mx dec : CfgVal)
deriving DecidableEq

/-- `build_generator(col_type_code, cfg)`: dispatch on the code; each branch
captures the configuration values it needs via `cfg.get` with its defaults
(`datetime.now().year` is passed in as `currentYear`); unrecognized codes
fall back to the UUID generator.  Total: construction never raises. -/
def build_generator (col_type_code : String) (cfg : Config) (currentYear : Int) : Gen :=
  if col_type_code = "full_name" then .full_name
  else if col_type_code = "first_name" then .first_name
  else if col_type_code = "last_name" then .last_name
  else if col_type_code = "email" then .email
  else if col_type_code = "phone" then .phone
  else if col_type_code = "cpf" then .cpf
  else if col_type_code = "address" then .address
  else if col_type_code = "city" then .city
  else if col_type_code = "state" then .state
  else if col_type_code = "cep" then .cep
  else if col_type_code = "date" then
    .date (cfgGetD cfg "year_start" (.int 2015)) (cfgGetD cfg "year_end" (.int currentYear))
  else if col_type_code = "datetime" then
    .datetime (cfgGetD cfg "year_start" (.int 2015)) (cfgGetD cfg "year_end" (.int currentYear))
  else if col_type_code = "int" then
    .int (cfgGetD cfg "min" (.int 0)) (cfgGetD cfg "max" (.int 100))
  else if col_type_code = "float" then
    .float (cfgGetD cfg "min" (.float 0)) (cfgGetD cfg "max" (.float 100))
      (cfgGetD cfg "decimals" (.int 2))
  else if col_type_code = "bool" then .bool
  else if col_type_code = "uuid" then .uuid
  else if col_type_code = "company" then .company
  else if col_type_code = "job" then .job
  else if col_type_code = "url" then .url
  else if col_type_code = "sentence" then .sentence
  else if col_type_code = "picklist" then
    .picklist (cfgGetD cfg "options" (.strList ["A", "B", "C"]))
  else if col_type_code = "price" then
    .price (cfgGetD cfg "min" (.float 10)) (cfgGetD cfg "max" (.float 1000))
      (cfgGetD cfg "decimals" (.int 2))
  else .uuid

/-- One invocation of the built closure: returns the cell string, or `none`
when the underlying Python call would raise. -/
def runGen (g : Gen) (e : Nat → Nat) : Option String :=
  match g with
  | .full_name => rand_full_name (e 0) (e 1)
  | .first_name => rand_first_name (e 0)
  | .last_name => rand_last_name (e 0)
  | .email => rand_email (e 0) (e 1) (e 2)
  | .phone => rand_phone (e 0) (e 1) (e 2)
  | .cpf => some (rand_cpf true e)
  | .address => rand_address (e 0) (e 1) (e 2) (e 3)
  | .city => rand_city (e 0)
  | .state => rand_state (e 0)
  | .cep => some (rand_cep true e)
  | .date ys ye => do
      let a ← asInt ys
      let b ← asInt ye
      rand_date a b (e 0) (e 1)
  | .datetime ys ye => do
      let a ← asInt ys
      let b ← asInt ye
      rand_datetime a b (e 0) (e 1)
  | .int mn mx => do
      let a ← asInt mn
      let b ← asInt mx
      let v ← rand_int a b (e 0)
      pure (String.mk (if v < 0 then '-' :: natToDigits v.natAbs else natToDigits v.natAbs))
  | .float mn mx dec => do
      let a ← asFloat mn
      let b ← asFloat mx
      let d ← asInt dec
      if d < 0 then none
      else pure (formatFixed (rand_float a b d.toNat (e 0)) d.toNat)
  | .bool => do
      let b ← rand_bool (e 0)
      pure (if b then "true" else "false")
  | .uuid => some (rand_uuid e)
  | .company => rand_company (e 0)
  | .job => rand_job (e 0)
  | .url => rand_url (e 0) (e 1) (e 2) (e 3)
  | .sentence => rand_sentence e
  | .picklist options => do
      let xs ← asStrList options
      pychoice xs (e 0)
  | .price mn mx dec => do
      let a ← asFloat mn
      let b ← asFloat mx
      let d ← asInt dec
      if d < 0 then none
      else pure (formatFixed (rand_float a b d.toNat (e 0)) d.toNat)

/-! ### C1 helper lemmas -/

theorem range'_concat_one (s n : Nat) :
    List.range' s (n + 1) = List.range' s n ++ [s + n] := by
  simpa using List.range'_1_concat s n

/-- The product-sum over digits zipped with the reversed weight range equals
the indexed sum the spec describes. -/
theorem zipWith_desc_weights (digs : List Nat) :
    (List.zipWith (fun d p => d * p) digs ((List.range' 2 digs.length).reverse)).sum
      = ((List.range digs.length).map (fun i => digs.getD i 0 * (digs.length + 1 - i))).sum := by
  induction digs with
  | nil => simp
  | cons d rest ih =>
    have h1 : List.range' 2 (rest.length + 1) = List.range' 2 rest.length ++ [2 + rest.length] :=
      range'_concat_one 2 rest.length
    have h2 : (List.range' 2 (rest.length + 1)).reverse
        = (2 + rest.length) :: (List.range' 2 rest.length).reverse := by
      rw [h1, List.reverse_append]; rfl
    simp only [List.length_cons, h2, List.zipWith_cons_cons, List.sum_cons,
      List.range_succ_eq_map, List.map_cons, List.map_map, ih]
    have h4 : ∀ i ∈ List.range rest.length,
        ((fun i => (d :: rest).getD i 0 * (rest.length + 1 + 1 - i)) ∘ Nat.succ) i
          = rest.getD i 0 * (rest.length + 1 - i) := by
      intro i _
      simp [Function.comp, List.getD_cons_succ, Nat.succ_sub_succ]
    rw [List.map_congr_left h4]
    simp only [List.getD_cons_zero, Nat.sub_zero]
    ring

/-- The code's check-digit function computes exactly the rule worded by the
spec. -/
theorem cpf_dv_eq_spec (digs : List Nat) : _cpf_dv digs = cpf_dv_fromSpec digs := by
  simp only [_cpf_dv, cpf_dv_fromSpec, zipWith_desc_weights]

/-- Claim C1: for every generated fiscal identifier (CPF), the 11-digit
sequence consists of 9 base digits followed by two trailing check digits,
where digit 10 is the modulo-11 check digit recomputed over the first 9
digits and digit 11 is the modulo-11 check digit recomputed over the first
10 digits; the code's modulo-11 rule coincides with the spec's descending
weight formula; and the unformatted output renders those digits.  Holds for
every entropy stream, i.e. for 100% of generated identifiers. -/
theorem cpf_check_digits (e : Nat → Nat) :
    (rand_cpf_nums e).length = 11 ∧
    (rand_cpf_nums e).getD 9 0 = _cpf_dv ((rand_cpf_nums e).take 9) ∧
    (rand_cpf_nums e).getD 10 0 = _cpf_dv ((rand_cpf_nums e).take 10) ∧
    (∀ digs : List Nat, _cpf_dv digs = cpf_dv_fromSpec digs) ∧
    rand_cpf false e = String.mk ((rand_cpf_nums e).map digitChar) := by
  refine ⟨?_, ?_, ?_, cpf_dv_eq_spec, rfl⟩ <;>
    simp [rand_cpf_nums, List.range_succ]

/-! ### C9: integer generator range -/

/-- The string `str(v)` for an integer `v`, as `runGen` renders it. -/
def intStr (v : Int) : String :=
  String.mk (if v < 0 then '-' :: natToDigits v.natAbs else natToDigits v.natAbs)

/-- Claim C9: for every integer configuration with `min ≤ max`, every value
produced by the integer column generator is an integer `v` with
`min ≤ v ≤ max`, on every draw; and every integer of `[min, max]` is
attainable by some draw (uniform support). -/
theorem int_generator_range (a b cy : Int) (e : Nat → Nat) (h : a ≤ b) :
    ∃ v : Int, a ≤ v ∧ v ≤ b ∧
      runGen (build_generator "int" [("min", CfgVal.int a), ("max", CfgVal.int b)] cy) e
        = some (intStr v) ∧
      ∀ w : Int, a ≤ w → w ≤ b →
        ∃ e2 : Nat → Nat,
          runGen (build_generator "int" [("min", CfgVal.int a), ("max", CfgVal.int b)] cy) e2
            = some (intStr w) := by
  have hpos : (0 : Int) < b - a + 1 := by omega
  have hbuild : build_generator "int" [("min", CfgVal.int a), ("max", CfgVal.int b)] cy
      = Gen.int (CfgVal.int a) (CfgVal.int b) := by
    simp [build_generator, cfgGetD, List.lookup]
  refine ⟨a + (e 0 : Int) % (b - a + 1), ?_, ?_, ?_, ?_⟩
  · have := Int.emod_nonneg ((e 0 : Nat) : Int) (by omega : b - a + 1 ≠ 0)
    omega
  · have := Int.emod_lt_of_pos ((e 0 : Nat) : Int) hpos
    omega
  · rw [hbuild]
    simp [runGen, asInt, rand_int, randint, h, intStr]
  · intro w hw1 hw2
    refine ⟨fun _ => (w - a).toNat, ?_⟩
    rw [hbuild]
    have hsup : (w - a) ⊔ 0 = w - a := sup_eq_left.mpr (by omega)
    have h3 : a + ((w - a) ⊔ 0) % (b - a + 1) = w := by
      rw [hsup, Int.emod_eq_of_lt (by omega) (by omega)]
      ring
    simp [runGen, asInt, rand_int, randint, h, h3, intStr]

/-- Witness for C9 at the spec's example configuration `min = 18, max = 65`. -/
theorem int_generator_range_witness :
    (18 : Int) ≤ 65 ∧
    ∃ v : Int, 18 ≤ v ∧ v ≤ 65 ∧
      runGen (build_generator "int" [("min", CfgVal.int 18), ("max", CfgVal.int 65)] 2025)
          (fun _ => 0) = some (intStr v) ∧
      ∀ w : Int, 18 ≤ w → w ≤ 65 →
        ∃ e2 : Nat → Nat,
          runGen (build_generator "int" [("min", CfgVal.int 18), ("max", CfgVal.int 65)] 2025) e2
            = some (intStr w) :=
  ⟨by norm_num, int_generator_range 18 65 2025 (fun _ => 0) (by norm_num)⟩

/-! ### C10: per-key defaults in the factory -/

/-- Claim C10: `build_generator` is total (construction never raises, being a
Lean function), and for any configuration mapping in which every lookup
misses — in particular the empty mapping — each configurable branch captures
exactly the documented per-key defaults: int `min=0, max=100`; float
`min=0.0, max=100.0, decimals=2`; date and datetime `year_start=2015`,
`year_end=currentYear`; picklist `options=["A","B","C"]`; price `min=10.0,
max=1000.0, decimals=2`. -/
theorem build_generator_defaults (cfg : Config) (cy : Int)
    (h : ∀ k : String, cfg.lookup k = none) :
    build_generator "int" cfg cy = Gen.int (CfgVal.int 0) (CfgVal.int 100) ∧
    build_generator "float" cfg cy
      = Gen.float (CfgVal.float 0) (CfgVal.float 100) (CfgVal.int 2) ∧
    build_generator "date" cfg cy = Gen.date (CfgVal.int 2015) (CfgVal.int cy) ∧
    build_generator "datetime" cfg cy = Gen.datetime (CfgVal.int 2015) (CfgVal.int cy) ∧
    build_generator "picklist" cfg cy = Gen.picklist (CfgVal.strList ["A", "B", "C"]) ∧
    build_generator "price" cfg cy
      = Gen.price (CfgVal.float 10) (CfgVal.float 1000) (CfgVal.int 2) := by
  refine ⟨?_, ?_, ?_, ?_, ?_, ?_⟩ <;> simp [build_generator, cfgGetD, h]

/-- Witness for C10 at the empty configuration mapping. -/
theorem build_generator_defaults_witness :
    (∀ k : String, (([] : Config)).lookup k = none) ∧
    (build_generator "int" [] 2025 = Gen.int (CfgVal.int 0) (CfgVal.int 100) ∧
     build_generator "float" [] 2025
       = Gen.float (CfgVal.float 0) (CfgVal.float 100) (CfgVal.int 2) ∧
     build_generator "date" [] 2025 = Gen.date (CfgVal.int 2015) (CfgVal.int 2025) ∧
     build_generator "datetime" [] 2025 = Gen.datetime (CfgVal.int 2015) (CfgVal.int 2025) ∧
     build_generator "picklist" [] 2025 = Gen.picklist (CfgVal.strList ["A", "B", "C"]) ∧
     build_generator "price" [] 2025
       = Gen.price (CfgVal.float 10) (CfgVal.float 1000) (CfgVal.int 2)) :=
  ⟨fun _ => rfl, build_generator_defaults [] 2025 (fun _ => rfl)⟩

/-! ### C3: unrecognized codes fall back to UUID v4 -/

/-- The UUID v4 shape: 36 characters, hyphens at offsets 8, 13, 18, 23, the
version character '4' at offset 14, and a variant character among
8, 9, a, b at offset 19. -/
def isUuid4Shape (s : String) : Prop :=
  s.data.length = 36 ∧
  s.data.get? 8 = some '-' ∧ s.data.get? 13 = some '-' ∧
  s.data.get? 18 = some '-' ∧ s.data.get? 23 = some '-' ∧
  s.data.get? 14 = some '4' ∧
  ∃ c, s.data.get? 19 = some c ∧ (c = '8' ∨ c = '9' ∨ c = 'a' ∨ c = 'b')

/-- Every uuid4 string has the v4 shape, whatever the entropy bytes. -/
theorem uuid4String_shape (e : Nat → Nat) : isUuid4Shape (uuid4String e) := by
  unfold isUuid4Shape uuid4String byteHex
  refine ⟨?_, ?_, ?_, ?_, ?_, ?_, ?_⟩
  · simp
  · rfl
  · rfl
  · rfl
  · rfl
  · show some (hexDigit ((e 6 % 256 % 16 + 64) / 16 % 16)) = some '4'
    have h4 : (e 6 % 256 % 16 + 64) / 16 % 16 = 4 := by omega
    rw [h4]
    rfl
  · refine ⟨hexDigit ((e 8 % 256 % 64 + 128) / 16 % 16), rfl, ?_⟩
    have h8 : (e 8 % 256 % 64 + 128) / 16 % 16 = 8 ∨ (e 8 % 256 % 64 + 128) / 16 % 16 = 9 ∨
        (e 8 % 256 % 64 + 128) / 16 % 16 = 10 ∨ (e 8 % 256 % 64 + 128) / 16 % 16 = 11 := by
      omega
    rcases h8 with h8 | h8 | h8 | h8 <;> rw [h8] <;> simp [hexDigit]

/-- Claim C3: `build(code, config)` is total for every code string, and every
code not present in the registry dispatches to the fallback branch: a
generator that yields a freshly generated UUID-v4-style identifier on each
call. -/
theorem unknown_code_falls_back_to_uuid (code : String) (cfg : Config) (cy : Int)
    (h : code ∉ knownCodes) :
    build_generator code cfg cy = Gen.uuid ∧
    ∀ e : Nat → Nat, runGen (build_generator code cfg cy) e = some (rand_uuid e) ∧
      isUuid4Shape (rand_uuid e) := by
  simp only [knownCodes, COLUMN_TYPES, List.map_cons, List.map_nil, List.mem_cons,
    List.not_mem_nil, or_false, not_or] at h
  obtain ⟨n1, n2, n3, n4, n5, n6, n7, n8, n9, n10, n11, n12, n13, n14, n15, n16,
    n17, n18, n19, n20, n21, n22⟩ := h
  have hb : build_generator code cfg cy = Gen.uuid := by
    simp [build_generator, n1, n2, n3, n4, n5, n6, n7, n8, n9, n10, n11, n12, n13,
      n14, n15, n16, n17, n18, n19, n20, n21, n22]
  refine ⟨hb, fun e => ?_⟩
  rw [hb]
  exact ⟨rfl, uuid4String_shape e⟩

/-- Witness for C3 at the unregistered code `"custom"`. -/
theorem unknown_code_falls_back_to_uuid_witness :
    "custom" ∉ knownCodes ∧ build_generator "custom" [] 2025 = Gen.uuid :=
  ⟨by decide, (unknown_code_falls_back_to_uuid "custom" [] 2025 (by decide)).1⟩

/-! ### C5: the collector normalizes inverted ranges -/

/-- The config carries numeric `min`/`max` entries with `min ≤ max`. -/
def cfgMinMaxOrdered (cfg : Config) : Prop :=
  ∃ a b : ℚ, (cfg.lookup "min").bind asFloat = some a ∧
    (cfg.lookup "max").bind asFloat = some b ∧ a ≤ b

/-- The config carries `year_start`/`year_end` entries with
`year_start ≤ year_end`. -/
def cfgYearsOrdered (cfg : Config) : Prop :=
  ∃ a b : Int, (cfg.lookup "year_start").bind asInt = some a ∧
    (cfg.lookup "year_end").bind asInt = some b ∧ a ≤ b

/-- Claim C5: for the configurable numeric/temporal types (`int`, `float`,
`date`, `datetime`, `price`) and any pair of user-supplied bounds (possibly
inverted), the collector's resulting config satisfies `min ≤ max`
(resp. `year_start ≤ year_end`); when the inputs are inverted the collector
swaps them (shown for the int branch). -/
theorem collector_normalizes_ranges (inp : PromptInputs) :
    cfgMinMaxOrdered (get_column_config "int" inp) ∧
    cfgMinMaxOrdered (get_column_config "float" inp) ∧
    cfgMinMaxOrdered (get_column_config "price" inp) ∧
    cfgYearsOrdered (get_column_config "date" inp) ∧
    cfgYearsOrdered (get_column_config "datetime" inp) ∧
    (inp.intMin > inp.intMax →
      (get_column_config "int" inp).lookup "min" = some (CfgVal.int inp.intMax) ∧
      (get_column_config "int" inp).lookup "max" = some (CfgVal.int inp.intMin)) := by
  refine ⟨?_, ?_, ?_, ?_, ?_, ?_⟩
  · by_cases h : inp.intMin > inp.intMax
    · exact ⟨inp.intMax, inp.intMin, by simp [get_column_config, h, asFloat, List.lookup],
        by simp [get_column_config, h, asFloat, List.lookup], by exact_mod_cast le_of_lt h⟩
    · exact ⟨inp.intMin, inp.intMax, by simp [get_column_config, h, asFloat, List.lookup],
        by simp [get_column_config, h, asFloat, List.lookup], by exact_mod_cast not_lt.mp h⟩
  · by_cases h : inp.fltMin > inp.fltMax
    · exact ⟨inp.fltMax, inp.fltMin, by simp [get_column_config, h, asFloat, List.lookup],
        by simp [get_column_config, h, asFloat, List.lookup], le_of_lt h⟩
    · exact ⟨inp.fltMin, inp.fltMax, by simp [get_column_config, h, asFloat, List.lookup],
        by simp [get_column_config, h, asFloat, List.lookup], not_lt.mp h⟩
  · by_cases h : inp.priceMin > inp.priceMax
    · exact ⟨inp.priceMax, inp.priceMin, by simp [get_column_config, h, asFloat, List.lookup],
        by simp [get_column_config, h, asFloat, List.lookup], le_of_lt h⟩
    · exact ⟨inp.priceMin, inp.priceMax, by simp [get_column_config, h, asFloat, List.lookup],
        by simp [get_column_config, h, asFloat, List.lookup], not_lt.mp h⟩
  · by_cases h : inp.dateYearStart > inp.dateYearEnd
    · exact ⟨inp.dateYearEnd, inp.dateYearStart,
        by simp [get_column_config, h, asInt, List.lookup],
        by simp [get_column_config, h, asInt, List.lookup], le_of_lt h⟩
    · exact ⟨inp.dateYearStart, inp.dateYearEnd,
        by simp [get_column_config, h, asInt, List.lookup],
        by simp [get_column_config, h, asInt, List.lookup], not_lt.mp h⟩
  · by_cases h : inp.dtYearStart > inp.dtYearEnd
    · exact ⟨inp.dtYearEnd, inp.dtYearStart,
        by simp [get_column_config, h, asInt, List.lookup],
        by simp [get_column_config, h, asInt, List.lookup], le_of_lt h⟩
    · exact ⟨inp.dtYearStart, inp.dtYearEnd,
        by simp [get_column_config, h, asInt, List.lookup],
        by simp [get_column_config, h, asInt, List.lookup], not_lt.mp h⟩
  · intro h
    constructor <;> simp [get_column_config, h, List.lookup]

/-- A concrete set of prompt answers with the integer bounds inverted. -/
def inpExample : PromptInputs :=
  ⟨7, 3, 0, 100, 2, 2015, 2025, 2015, 2025, "A,B", 10, 1000, 2⟩

/-- Witness for C5: with inverted integer bounds `7 > 3` the collector swaps
them. -/
theorem collector_normalizes_ranges_witness :
    inpExample.intMin > inpExample.intMax ∧
    (get_column_config "int" inpExample).lookup "min" = some (CfgVal.int 3) ∧
    (get_column_config "int" inpExample).lookup "max" = some (CfgVal.int 7) :=
  ⟨by decide, ((collector_normalizes_ranges inpExample).2.2.2.2.2 (by decide)).1,
   ((collector_normalizes_ranges inpExample).2.2.2.2.2 (by decide)).2⟩

/-! ### C2: empty picklist options raise at generation time -/

/-- Prompt answers whose picklist input is all-blank tokens (`" , ,"`). -/
def inpBlankPicklist : PromptInputs :=
  ⟨0, 100, 0, 100, 2, 2015, 2025, 2015, 2025, " , ,", 10, 1000, 2⟩

/-- Claim C2 evaluated on the code: an all-blank comma-separated input makes
the collector store `options = []`; the factory captures that empty list
(the key is present, so the `["A","B","C"]` default is not used), and
invoking the generator evaluates `random.choice([])`, which raises
`IndexError` — modelled as `none`.  The generator therefore throws instead
of returning a fallback string, contradicting the claim. -/
theorem picklist_empty_options_raises :
    get_column_config "picklist" inpBlankPicklist = [("options", CfgVal.strList [])] ∧
    build_generator "picklist" [("options", CfgVal.strList [])] 2025
      = Gen.picklist (CfgVal.strList []) ∧
    ∀ r : Nat, runGen (Gen.picklist (CfgVal.strList [])) (fun _ => r) = none := by
  refine ⟨by decide, by decide, fun r => ?_⟩
  simp [runGen, asStrList, pychoice]

/-! ### C7: what the generators capture

The main model above is value-based, which is faithful for every captured
scalar (Python ints and floats are immutable).  The one captured value with
Python reference semantics is the picklist's options *list*: the branch
`options = cfg.get("options", ["A","B","C"]); return lambda: random.choice(options)`
stores a reference, and `random.choice` reads the referenced list at call
time.  This refined model makes the reference explicit: a heap of string
lists, configs holding list *references*, and the built picklist closure
holding either the captured reference or the fresh (unaliased) default
list. -/

/-- A heap of Python list objects, addressed by index. -/
abbrev Heap := List (List String)

/-- A config value under reference semantics: scalars by value, lists by
reference. -/
inductive CfgValR where
  | int (z : Int)
  | float (q : ℚ)
  | listRef (r : Nat)
deriving DecidableEq

abbrev ConfigR := List (String × CfgValR)

/-- Dereference a list object. -/
def derefList (h : Heap) (r : Nat) : List String :=
  (h.get? r).getD []

/-- The picklist closure under reference semantics: it captured either the
reference stored in the config, the non-list scalar stored there, or — when
the key was missing — a freshly allocated `["A","B","C"]` aliased by
nothing. -/
inductive PickGen where
  | ref (r : Nat)
  | val (v : CfgVal)
deriving DecidableEq

/-- The picklist branch of `build_generator` under reference semantics. -/
def build_picklist (cfg : ConfigR) : PickGen :=
  match cfg.lookup "options" with
  | some (.listRef r) => .ref r
  | some (.int z) => .val (.int z)
  | some (.float q) => .val (.float q)
  | none => .val (.strList ["A", "B", "C"])

/-- Calling the built picklist closure against the current heap. -/
def runPick (g : PickGen) (h : Heap) (e : Nat → Nat) : Option String :=
  match g with
  | .ref r => pychoice (derefList h r) (e 0)
  | .val v => do
      let xs ← asStrList v
      pychoice xs (e 0)

/-- Counterexample to claim C7: build the picklist generator from a config
whose `options` entry references heap cell 0 holding `["A"]`; mutating that
stored list in place (heap cell 0 becomes `["Z"]`) changes the output of the
already-built generator from `"A"` to `"Z"`. -/
theorem generator_capture_counterexample :
    build_picklist [("options", CfgValR.listRef 0)] = PickGen.ref 0 ∧
    runPick (build_picklist [("options", CfgValR.listRef 0)]) [["A"]] (fun _ => 0)
      = some "A" ∧
    runPick (build_picklist [("options", CfgValR.listRef 0)]) [["Z"]] (fun _ => 0)
      = some "Z" ∧
    runPick (build_picklist [("options", CfgValR.listRef 0)]) [["A"]] (fun _ => 0)
      ≠ runPick (build_picklist [("options", CfgValR.listRef 0)]) [["Z"]] (fun _ => 0) := by
  refine ⟨rfl, rfl, rfl, ?_⟩
  decide

/-- Claim C7 as amended: every captured scalar is read from the config once
at build time and never re-read, so rebinding config entries after build
never affects a built generator (the value-based `build_generator` captures
them in the returned `Gen`); for the picklist closure, outputs can change
only through the captured list reference: any heap change that leaves the
referenced cell's contents intact leaves the outputs unchanged, and when the
`options` key was absent the captured default list is aliased by nothing, so
no heap mutation at all affects the outputs. -/
theorem generator_capture_amended (cfg : ConfigR) (h h2 : Heap) (e : Nat → Nat) :
    (∀ r : Nat, build_picklist cfg = PickGen.ref r → derefList h2 r = derefList h r →
      runPick (build_picklist cfg) h2 e = runPick (build_picklist cfg) h e) ∧
    (∀ v : CfgVal, build_picklist cfg = PickGen.val v →
      runPick (build_picklist cfg) h2 e = runPick (build_picklist cfg) h e) ∧
    (∀ code cfg2 cfg3 cy, build_generator code cfg2 cy = build_generator code cfg3 cy →
      runGen (build_generator code cfg2 cy) e = runGen (build_generator code cfg3 cy) e) := by
  refine ⟨fun r hg hd => ?_, fun v hg => ?_, fun code cfg2 cfg3 cy hg => ?_⟩
  · rw [hg]
    simp [runPick, hd]
  · rw [hg]
    rfl
  · rw [hg]

/-- Witness for the amended C7: heaps `[["A"]]` and `[["A"], ["B"]]` agree at
the captured reference 0, so the built generator's output is unchanged. -/
theorem generator_capture_amended_witness :
    (build_picklist [("options", CfgValR.listRef 0)] = PickGen.ref 0 →
      derefList [["A"], ["B"]] 0 = derefList [["A"]] 0 →
      runPick (build_picklist [("options", CfgValR.listRef 0)]) [["A"], ["B"]] (fun _ => 0)
        = runPick (build_picklist [("options", CfgValR.listRef 0)]) [["A"]] (fun _ => 0)) ∧
    runPick (build_picklist [("options", CfgValR.listRef 0)]) [["A"], ["B"]] (fun _ => 0)
      = runPick (build_picklist [("options", CfgValR.listRef 0)]) [["A"]] (fun _ => 0) :=
  ⟨(generator_capture_amended [("options", CfgValR.listRef 0)] [["A"]] [["A"], ["B"]]
      (fun _ => 0)).1 0,
   (generator_capture_amended [("options", CfgValR.listRef 0)] [["A"]] [["A"], ["B"]]
      (fun _ => 0)).1 0 rfl rfl⟩

/-! ### C8: seeded reproducibility

`main` seeds the `random` module once (`random.seed(seed)`), before any
generator is built or called.  The Mersenne Twister is abstracted by
`mtStream`: its internals are irrelevant here, only that it is a pure
function of the seed, so every draw from the `random` module is
seed-determined.  `uuid.uuid4()`, however, reads `os.urandom`, which
`random.seed` does not influence: it is modelled as a second, independent
byte stream `urand` that varies between runs. -/

/-- Abstraction of the seeded Mersenne Twister: some fixed pure function of
the seed — the only property that matters is that it is seed-determined. -/
def mtStream (seed : Nat) : Nat → Nat :=
  fun n => (seed + 1) * 2654435761 + n * 40503

/-- Does the generator draw from `os.urandom` instead of the seeded
`random` module? -/
def usesOsUrandom : Gen → Bool
  | .uuid => true
  | _ => false

/-- The slice of a stream feeding one cell (row `ri`, column `ci`); the
exact consumption layout is irrelevant, only which source feeds the cell. -/
def cellStream (src : Nat → Nat) (ri ci : Nat) : Nat → Nat :=
  fun n => src ((ri * 256 + ci) * 64 + n)

/-- CSV field quoting (`csv.writer` with the default dialect). -/
def csvField (s : String) : String :=
  if s.data.any (fun c => c = ',' || c = '"' || c = '\n' || c = '\r') then
    "\"" ++ String.mk (s.data.flatMap (fun c => if c = '"' then ['"', '"'] else [c])) ++ "\""
  else s

/-- The generation pass of `main` after seeding: the header row of column
names, then `num_rows` rows, each cell produced by one invocation of its
column's generator; every generator draws from the seeded stream except the
UUID generator, which draws from `os.urandom` (`urand`).  `csv.writer`
terminates lines with `"\r\n"`. -/
def run_main (seed : Nat) (columns : List (String × Gen)) (num_rows : Nat)
    (urand : Nat → Nat) : Option String := do
  let header := String.intercalate "," (columns.map (fun c => csvField c.1)) ++ "\r\n"
  let rows ← (List.range num_rows).mapM (fun ri => do
    let cells ← columns.enum.mapM (fun ic => do
      let v ← runGen ic.2.2
        (cellStream (if usesOsUrandom ic.2.2 then urand else mtStream seed) ri ic.1)
      pure (csvField v))
    pure (String.intercalate "," cells ++ "\r\n"))
  pure (header ++ String.join rows)

/-- Claim C8 evaluated on the code: with the same seed (42) and the same
schema (one `uuid` column, one row), the output still depends on the
`os.urandom` bytes backing `uuid.uuid4()`, which `random.seed` does not
determine — two runs whose urandom bytes differ produce different files, so
seeded runs are not byte-identical whenever the schema contains a `uuid`
column (or any unrecognized code, which falls back to uuid). -/
theorem seeded_runs_not_byte_identical :
    run_main 42 [("id", Gen.uuid)] 1 (fun _ => 0)
      = some ("id\r\n" ++ "00000000-0000-4000-8000-000000000000" ++ "\r\n") ∧
    run_main 42 [("id", Gen.uuid)] 1 (fun _ => 255)
      = some ("id\r\n" ++ "ffffffff-ffff-4fff-bfff-ffffffffffff" ++ "\r\n") ∧
    run_main 42 [("id", Gen.uuid)] 1 (fun _ => 0)
      ≠ run_main 42 [("id", Gen.uuid)] 1 (fun _ => 255) := by
  refine ⟨by decide, by decide, by decide⟩

/-! ### C4: fixed-point rendering and the rounded value's range -/

/-- A decimal digit character. -/
def isDigChar (c : Char) : Bool :=
  48 ≤ c.toNat && c.toNat ≤ 57

theorem isDigChar_digitChar (k : Nat) : isDigChar (digitChar k) = true := by
  unfold digitChar
  split_ifs <;> decide

theorem digitChar_ne_dot (k : Nat) : digitChar k ≠ '.' := by
  unfold digitChar
  split_ifs <;> decide

theorem padDigits_length (d m : Nat) : (padDigits d m).length = d := by
  induction d generalizing m with
  | zero => rfl
  | succ d ih => simp [padDigits, ih]

theorem padDigits_digits (d m : Nat) : ∀ c ∈ padDigits d m, isDigChar c = true := by
  induction d generalizing m with
  | zero => intro c hc; simp [padDigits] at hc
  | succ d ih =>
    intro c hc
    simp only [padDigits, List.mem_append, List.mem_singleton] at hc
    rcases hc with hc | hc
    · exact ih (m / 10) c hc
    · rw [hc]; exact isDigChar_digitChar _

theorem charsToNat_append_digit (l : List Char) (c : Char) :
    charsToNat (l ++ [c]) = charsToNat l * 10 + (c.toNat - 48) := by
  simp [charsToNat, List.foldl_append]

theorem digitVal_digitChar (k : Nat) (h : k < 10) : (digitChar k).toNat - 48 = k := by
  interval_cases k <;> rfl

theorem charsToNat_padDigits (d m : Nat) : charsToNat (padDigits d m) = m % 10 ^ d := by
  induction d generalizing m with
  | zero => simp [padDigits, charsToNat, Nat.mod_one]
  | succ d ih =>
    rw [padDigits, charsToNat_append_digit, ih,
      digitVal_digitChar (m % 10) (Nat.mod_lt _ (by norm_num)), pow_succ,
      mul_comm (10 ^ d) 10, Nat.mod_mul]
    omega

theorem natToDigitsAux_digits (fuel m : Nat) :
    ∀ c ∈ natToDigitsAux fuel m, isDigChar c = true := by
  induction fuel generalizing m with
  | zero => intro c hc; simp [natToDigitsAux] at hc
  | succ fuel ih =>
    intro c hc
    rw [natToDigitsAux] at hc
    by_cases hm : m < 10
    · rw [if_pos hm] at hc
      simp only [List.mem_singleton] at hc
      rw [hc]; exact isDigChar_digitChar _
    · rw [if_neg hm] at hc
      simp only [List.mem_append, List.mem_singleton] at hc
      rcases hc with hc | hc
      · exact ih (m / 10) c hc
      · rw [hc]; exact isDigChar_digitChar _

theorem natToDigits_digits (m : Nat) : ∀ c ∈ natToDigits m, isDigChar c = true :=
  natToDigitsAux_digits (m + 1) m

theorem charsToNat_natToDigitsAux (fuel m : Nat) (h : m < fuel) :
    charsToNat (natToDigitsAux fuel m) = m := by
  induction fuel generalizing m with
  | zero => omega
  | succ fuel ih =>
    rw [natToDigitsAux]
    by_cases hm : m < 10
    · rw [if_pos hm]
      simp only [charsToNat, List.foldl_cons, List.foldl_nil]
      rw [Nat.zero_mul, Nat.zero_add, digitVal_digitChar m hm]
    · rw [if_neg hm, charsToNat_append_digit,
        ih (m / 10) (by omega), digitVal_digitChar (m % 10) (Nat.mod_lt _ (by norm_num))]
      omega

theorem charsToNat_natToDigits (m : Nat) : charsToNat (natToDigits m) = m :=
  charsToNat_natToDigitsAux (m + 1) m (Nat.lt_succ_self m)

theorem digChar_ne_dot {c : Char} (h : isDigChar c = true) : c ≠ '.' := by
  intro hc
  rw [hc] at h
  simp [isDigChar] at h

theorem takeWhile_all_append (p : Char → Bool) (l t : List Char) (c : Char)
    (hl : ∀ x ∈ l, p x = true) (hc : p c = false) :
    (l ++ c :: t).takeWhile p = l := by
  induction l with
  | nil => simp [List.takeWhile, hc]
  | cons a l ih =>
    have ha : p a = true := hl a (by simp)
    simp only [List.cons_append, List.takeWhile_cons, ha, if_true]
    rw [ih (fun x hx => hl x (by simp [hx]))]

theorem dropWhile_all_append (p : Char → Bool) (l t : List Char) (c : Char)
    (hl : ∀ x ∈ l, p x = true) (hc : p c = false) :
    (l ++ c :: t).dropWhile p = c :: t := by
  induction l with
  | nil => simp [List.dropWhile, hc]
  | cons a l ih =>
    have ha : p a = true := hl a (by simp)
    simp only [List.cons_append, List.dropWhile_cons, ha, if_true]
    exact ih (fun x hx => hl x (by simp [hx]))

theorem takeWhile_all (p : Char → Bool) (l : List Char) (hl : ∀ x ∈ l, p x = true) :
    l.takeWhile p = l := by
  induction l with
  | nil => rfl
  | cons a l ih =>
    have ha : p a = true := hl a (by simp)
    simp only [List.takeWhile_cons, ha, if_true]
    rw [ih (fun x hx => hl x (by simp [hx]))]

theorem dropWhile_all (p : Char → Bool) (l : List Char) (hl : ∀ x ∈ l, p x = true) :
    l.dropWhile p = [] := by
  induction l with
  | nil => rfl
  | cons a l ih =>
    have ha : p a = true := hl a (by simp)
    simp only [List.dropWhile_cons, ha, if_true]
    exact ih (fun x hx => hl x (by simp [hx]))

theorem natToDigits_ne_nil (m : Nat) : natToDigits m ≠ [] := by
  unfold natToDigits natToDigitsAux
  split_ifs <;> simp

/-- Parsing the digit body `natToDigits ip ++ ['.'] ++ padDigits d fp` (no dot
when `d = 0`) recovers `(10^d * ip + fp) / 10^d`. -/
theorem parseBody_split (ipn fpn d : Nat) (hfp : fpn < 10 ^ d) :
    parseBody (natToDigits ipn ++ (if d = 0 then ([] : List Char) else '.' :: padDigits d fpn))
      = ((10 ^ d * ipn + fpn : Nat) : ℚ) / 10 ^ d := by
  have hdig : ∀ x ∈ natToDigits ipn, (fun c => decide (c ≠ '.')) x = true := by
    intro x hx
    simpa using digChar_ne_dot (natToDigits_digits ipn x hx)
  by_cases hd : d = 0
  · subst hd
    have hfp0 : fpn = 0 := by simpa using hfp
    subst hfp0
    show parseBody (natToDigits ipn ++ ([] : List Char))
      = ((10 ^ 0 * ipn + 0 : Nat) : ℚ) / 10 ^ 0
    rw [List.append_nil]
    unfold parseBody
    rw [takeWhile_all _ _ hdig, dropWhile_all _ _ hdig, charsToNat_natToDigits]
    simp [charsToNat]
  · rw [if_neg hd]
    unfold parseBody
    rw [takeWhile_all_append _ _ _ _ hdig (by simp),
        dropWhile_all_append _ _ _ _ hdig (by simp)]
    simp only [List.drop_succ_cons, List.drop_zero]
    rw [charsToNat_natToDigits, charsToNat_padDigits, padDigits_length,
        Nat.mod_eq_of_lt hfp]
    push_cast
    have hp : ((10 : ℚ) ^ d) ≠ 0 := by positivity
    field_simp
    ring

/-- `roundHalfEven` is the identity on integers. -/
theorem roundHalfEven_intCast (n : Int) : roundHalfEven (n : ℚ) = n := by
  unfold roundHalfEven
  rw [Int.floor_intCast]
  norm_num

/-- Half-even rounding moves a rational by at most `1/2`. -/
theorem abs_roundHalfEven_sub (q : ℚ) : |(roundHalfEven q : ℚ) - q| ≤ 1 / 2 := by
  simp only [roundHalfEven]
  have h0 : (⌊q⌋ : ℚ) ≤ q := Int.floor_le q
  have h1 : q < (⌊q⌋ : ℚ) + 1 := Int.lt_floor_add_one q
  split_ifs with hf hg hn
  · rw [abs_sub_comm, abs_of_nonneg (by linarith)]
    linarith
  · rw [abs_of_nonneg (by push_cast; linarith)]
    push_cast
    linarith
  · have he : q - (⌊q⌋ : ℚ) = 1 / 2 := by linarith
    rw [abs_sub_comm, abs_of_nonneg (by linarith)]
    linarith
  · have he : q - (⌊q⌋ : ℚ) = 1 / 2 := by linarith
    rw [abs_of_nonneg (by push_cast; linarith)]
    push_cast
    linarith

/-- The character data of a rendered fixed-point string: an optional minus
sign, the integer-part digits, and (when `d > 0`) a dot followed by exactly
`d` fractional digits. -/
theorem formatFixed_data (q : ℚ) (d : Nat) :
    (formatFixed q d).data
      = (if roundHalfEven (q * 10 ^ d) < 0 then ['-'] else []) ++
        (natToDigits ((roundHalfEven (q * 10 ^ d)).natAbs / 10 ^ d) ++
          (if d = 0 then ([] : List Char)
           else '.' :: padDigits d ((roundHalfEven (q * 10 ^ d)).natAbs % 10 ^ d))) := by
  simp only [formatFixed]
  split_ifs <;> simp [String.data_append]

/-- `parseFixed` reads back exactly the rational `formatFixed` renders. -/
theorem parseFixed_formatFixed (q : ℚ) (d : Nat) :
    parseFixed (formatFixed q d) = (roundHalfEven (q * 10 ^ d) : ℚ) / 10 ^ d := by
  have hfp : (roundHalfEven (q * 10 ^ d)).natAbs % 10 ^ d < 10 ^ d :=
    Nat.mod_lt _ (by positivity)
  have hbody := parseBody_split ((roundHalfEven (q * 10 ^ d)).natAbs / 10 ^ d)
    ((roundHalfEven (q * 10 ^ d)).natAbs % 10 ^ d) d hfp
  rw [Nat.div_add_mod] at hbody
  unfold parseFixed
  rw [formatFixed_data]
  by_cases hneg : roundHalfEven (q * 10 ^ d) < 0
  · rw [if_pos hneg]
    simp only [List.cons_append, List.nil_append, if_true, ite_true, reduceIte, hbody]
    have habs : (((roundHalfEven (q * 10 ^ d)).natAbs : Nat) : ℚ)
        = -((roundHalfEven (q * 10 ^ d) : ℚ)) := by
      rw [Int.cast_natAbs]
      exact_mod_cast abs_of_neg hneg
    rw [habs]
    ring
  · rw [if_neg hneg]
    simp only [List.nil_append]
    obtain ⟨c, rest, hcr⟩ : ∃ c rest,
        natToDigits ((roundHalfEven (q * 10 ^ d)).natAbs / 10 ^ d) = c :: rest := by
      cases hnn : natToDigits ((roundHalfEven (q * 10 ^ d)).natAbs / 10 ^ d) with
      | nil => exact absurd hnn (natToDigits_ne_nil _)
      | cons c rest => exact ⟨c, rest, rfl⟩
    have hcdig : isDigChar c = true :=
      natToDigits_digits _ c (by rw [hcr]; exact List.mem_cons_self c rest)
    have hcm : c ≠ '-' := by
      intro hc
      rw [hc] at hcdig
      simp [isDigChar] at hcdig
    rw [hcr]
    simp only [List.cons_append]
    rw [if_neg hcm, ← List.cons_append, ← hcr, hbody]
    have habs : (((roundHalfEven (q * 10 ^ d)).natAbs : Nat) : ℚ)
        = ((roundHalfEven (q * 10 ^ d) : ℚ)) := by
      rw [Int.cast_natAbs]
      exact_mod_cast abs_of_nonneg (not_lt.mp hneg)
    rw [habs]

theorem random01_nonneg (r : Nat) : 0 ≤ random01 r := by
  unfold random01
  positivity

theorem random01_lt_one (r : Nat) : random01 r < 1 := by
  unfold random01
  rw [div_lt_one (by positivity)]
  exact_mod_cast Nat.mod_lt r (by positivity)

/-- Rounding to `d` places moves a rational by at most half an ulp. -/
theorem abs_pyRound_sub (q : ℚ) (d : Nat) : |pyRound q d - q| ≤ 1 / (2 * 10 ^ d) := by
  unfold pyRound
  have h10 : (0 : ℚ) < 10 ^ d := by positivity
  have h := abs_roundHalfEven_sub (q * 10 ^ d)
  have heq : (roundHalfEven (q * 10 ^ d) : ℚ) / 10 ^ d - q
      = ((roundHalfEven (q * 10 ^ d) : ℚ) - q * 10 ^ d) / 10 ^ d := by
    field_simp
    ring
  rw [heq, abs_div, abs_of_pos h10,
    show (1 : ℚ) / (2 * 10 ^ d) = (1 / 2) / 10 ^ d from by ring]
  gcongr

/-- For an ordered range, the rounded draw lies within the range widened by
half an ulp on each side. -/
theorem rand_float_bounds (mn mx : ℚ) (d r : Nat) (h : mn ≤ mx) :
    mn - 1 / (2 * 10 ^ d) ≤ rand_float mn mx d r ∧
    rand_float mn mx d r ≤ mx + 1 / (2 * 10 ^ d) := by
  have hq0 := random01_nonneg r
  have hq1 := random01_lt_one r
  have hraw1 : mn ≤ random01 r * (mx - mn) + mn := by nlinarith
  have hraw2 : random01 r * (mx - mn) + mn ≤ mx := by nlinarith
  have hval : rand_float mn mx d r = pyRound (random01 r * (mx - mn) + mn) d := by
    simp [rand_float, if_neg (not_lt.mpr h)]
  have key := abs_le.mp (abs_pyRound_sub (random01 r * (mx - mn) + mn) d)
  rw [hval]
  constructor <;> linarith [key.1, key.2]

/-- Every `rand_float` value is an integer multiple of `10^(-d)`. -/
theorem rand_float_eq_div (mn mx : ℚ) (d r : Nat) :
    ∃ n : Int, rand_float mn mx d r = (n : ℚ) / 10 ^ d := by
  refine ⟨roundHalfEven ((random01 r *
    ((if mn > mx then (mx, mn) else (mn, mx)).2 -
      (if mn > mx then (mx, mn) else (mn, mx)).1) +
    (if mn > mx then (mx, mn) else (mn, mx)).1) * 10 ^ d), ?_⟩
  simp [rand_float, pyRound]

/-- Parsing a rendered `d`-decimal value recovers it exactly. -/
theorem parseFixed_formatFixed_exact (n : Int) (d : Nat) :
    parseFixed (formatFixed ((n : ℚ) / 10 ^ d) d) = (n : ℚ) / 10 ^ d := by
  rw [parseFixed_formatFixed,
    div_mul_cancel₀ _ (show ((10 : ℚ) ^ d) ≠ 0 from by positivity), roundHalfEven_intCast]

/-- For `d > 0` the rendered string has a single dot followed by exactly `d`
digit characters. -/
theorem formatFixed_shape (q : ℚ) (d : Nat) (hd : 0 < d) :
    ∃ pre post : List Char, (formatFixed q d).data = pre ++ '.' :: post ∧
      post.length = d ∧ (∀ c ∈ post, isDigChar c = true) ∧ '.' ∉ pre := by
  refine ⟨(if roundHalfEven (q * 10 ^ d) < 0 then ['-'] else []) ++
      natToDigits ((roundHalfEven (q * 10 ^ d)).natAbs / 10 ^ d),
    padDigits d ((roundHalfEven (q * 10 ^ d)).natAbs % 10 ^ d), ?_,
    padDigits_length _ _, padDigits_digits _ _, ?_⟩
  · rw [formatFixed_data, if_neg (Nat.pos_iff_ne_zero.mp hd), List.append_assoc]
  · intro hmem
    rcases List.mem_append.mp hmem with hmem | hmem
    · split_ifs at hmem <;> simp_all
    · exact absurd rfl (digChar_ne_dot (natToDigits_digits _ _ hmem))

/-- The rendered character data at `d = 0`: sign and integer digits only. -/
theorem formatFixed_data_zero (q : ℚ) :
    (formatFixed q 0).data
      = (if roundHalfEven (q * 10 ^ 0) < 0 then ['-'] else []) ++
        natToDigits ((roundHalfEven (q * 10 ^ 0)).natAbs / 10 ^ 0) := by
  rw [formatFixed_data]
  simp

/-- For `d = 0` the rendered string has no decimal point at all. -/
theorem formatFixed_nodot (q : ℚ) : '.' ∉ (formatFixed q 0).data := by
  rw [formatFixed_data_zero]
  intro hmem
  rcases List.mem_append.mp hmem with hmem | hmem
  · split_ifs at hmem <;> simp_all
  · exact absurd rfl (digChar_ne_dot (natToDigits_digits _ _ hmem))

/-- Claim C4 as amended: for every float or price configuration with
`min ≤ max` and `decimals = d`, the generated string is the fixed-point
rendering of the rounded draw, with exactly `d` digit characters after the
single decimal point when `d > 0` (and no point when `d = 0`); the rational
the string denotes is the rounded draw itself, and it lies within
`[min - 10^(-d)/2, max + 10^(-d)/2]` — the half-ulp widening is necessary,
because rounding the drawn value to `d` places can land just outside
`[min, max]` (see the counterexample). -/
theorem float_price_format_amended (mn mx : ℚ) (d : Nat) (cy : Int) (e : Nat → Nat)
    (h : mn ≤ mx) :
    runGen (build_generator "float"
        [("min", CfgVal.float mn), ("max", CfgVal.float mx),
         ("decimals", CfgVal.int (d : Int))] cy) e
      = some (formatFixed (rand_float mn mx d (e 0)) d) ∧
    runGen (build_generator "price"
        [("min", CfgVal.float mn), ("max", CfgVal.float mx),
         ("decimals", CfgVal.int (d : Int))] cy) e
      = some (formatFixed (rand_float mn mx d (e 0)) d) ∧
    parseFixed (formatFixed (rand_float mn mx d (e 0)) d) = rand_float mn mx d (e 0) ∧
    mn - 1 / (2 * 10 ^ d) ≤ rand_float mn mx d (e 0) ∧
    rand_float mn mx d (e 0) ≤ mx + 1 / (2 * 10 ^ d) ∧
    (0 < d → ∃ pre post : List Char,
      (formatFixed (rand_float mn mx d (e 0)) d).data = pre ++ '.' :: post ∧
      post.length = d ∧ (∀ c ∈ post, isDigChar c = true) ∧ '.' ∉ pre) ∧
    (d = 0 → '.' ∉ (formatFixed (rand_float mn mx d (e 0)) d).data) := by
  obtain ⟨hb1, hb2⟩ := rand_float_bounds mn mx d (e 0) h
  obtain ⟨n, hn⟩ := rand_float_eq_div mn mx d (e 0)
  refine ⟨?_, ?_, ?_, hb1, hb2, fun hd => formatFixed_shape _ d hd, fun hd => ?_⟩
  · have hbuild : build_generator "float"
        [("min", CfgVal.float mn), ("max", CfgVal.float mx),
         ("decimals", CfgVal.int (d : Int))] cy
        = Gen.float (CfgVal.float mn) (CfgVal.float mx) (CfgVal.int (d : Int)) := by
      simp [build_generator, cfgGetD, List.lookup]
    rw [hbuild]
    simp [runGen, asFloat, asInt, Int.toNat_natCast, not_lt.mpr (Int.natCast_nonneg d)]
  · have hbuild : build_generator "price"
        [("min", CfgVal.float mn), ("max", CfgVal.float mx),
         ("decimals", CfgVal.int (d : Int))] cy
        = Gen.price (CfgVal.float mn) (CfgVal.float mx) (CfgVal.int (d : Int)) := by
      simp [build_generator, cfgGetD, List.lookup]
    rw [hbuild]
    simp [runGen, asFloat, asInt, Int.toNat_natCast, not_lt.mpr (Int.natCast_nonneg d)]
  · rw [hn, parseFixed_formatFixed_exact]
  · subst hd
    exact formatFixed_nodot _

theorem rand_float_zero_hundred : rand_float 0 100 2 0 = 0 := by
  have hr0 : random01 0 = 0 := by
    unfold random01
    norm_num
  have hnot : ¬((0 : ℚ) > 100) := by norm_num
  simp only [rand_float, if_neg hnot, hr0]
  have hraw : (0 : ℚ) * (((0 : ℚ), (100 : ℚ)).2 - ((0 : ℚ), (100 : ℚ)).1) +
      ((0 : ℚ), (100 : ℚ)).1 = 0 := by norm_num
  rw [hraw]
  unfold pyRound
  rw [show (0 : ℚ) * 10 ^ 2 = (((0 : Int)) : ℚ) from by norm_num, roundHalfEven_intCast]
  norm_num

/-- Witness for the amended C4 at `min = 0, max = 100, decimals = 2`,
draw 0: the generated string is `"0.00"`. -/
theorem float_price_format_amended_witness :
    (0 : ℚ) ≤ 100 ∧
    runGen (build_generator "float"
        [("min", CfgVal.float 0), ("max", CfgVal.float 100),
         ("decimals", CfgVal.int ((2 : Nat) : Int))] 2025) (fun _ => 0)
      = some (formatFixed (rand_float 0 100 2 0) 2) ∧
    formatFixed (rand_float 0 100 2 0) 2 = "0.00" :=
  ⟨by norm_num,
   (float_price_format_amended 0 100 2 2025 (fun _ => 0) (by norm_num)).1,
   by rw [rand_float_zero_hundred]
      have h1 : roundHalfEven ((0 : ℚ) * 10 ^ 2) = (0 : Int) := by
        rw [show (0 : ℚ) * 10 ^ 2 = (((0 : Int)) : ℚ) from by norm_num, roundHalfEven_intCast]
      simp only [formatFixed, h1]
      rfl⟩

/-- Counterexample to claim C4 as stated: with `min = 0.006`, `max = 0.007`
(`min ≤ max`) and `decimals = 2`, the draw 0 yields the raw value `0.006`
inside `[min, max]`, but rounding to 2 places produces the string `"0.01"`,
whose value `1/100` lies outside `[min, max]`. -/
theorem float_range_counterexample :
    ((3 : ℚ) / 500 ≤ 7 / 1000) ∧
    runGen (build_generator "float"
        [("min", CfgVal.float (3 / 500)), ("max", CfgVal.float (7 / 1000)),
         ("decimals", CfgVal.int 2)] 2025) (fun _ => 0) = some "0.01" ∧
    parseFixed "0.01" = 1 / 100 ∧
    ¬ ((3 : ℚ) / 500 ≤ 1 / 100 ∧ (1 : ℚ) / 100 ≤ 7 / 1000) := by
  have hround : roundHalfEven ((3 / 500 : ℚ) * 10 ^ 2) = 1 := by
    have h35 : ((3 : ℚ) / 500) * 10 ^ 2 = 3 / 5 := by norm_num
    have hfl : ⌊(3 / 5 : ℚ)⌋ = 0 := by
      rw [Int.floor_eq_iff]
      norm_num
    rw [h35]
    simp only [roundHalfEven, hfl]
    norm_num
  have hval : rand_float (3 / 500 : ℚ) (7 / 1000) 2 0 = 1 / 100 := by
    have hr0 : random01 0 = 0 := by
      unfold random01
      norm_num
    have hnot : ¬((3 : ℚ) / 500 > 7 / 1000) := by norm_num
    simp only [rand_float, if_neg hnot, hr0]
    have hraw : (0 : ℚ) * ((((3 : ℚ) / 500), ((7 : ℚ) / 1000)).2 -
        (((3 : ℚ) / 500), ((7 : ℚ) / 1000)).1) + (((3 : ℚ) / 500), ((7 : ℚ) / 1000)).1
        = 3 / 500 := by norm_num
    rw [hraw]
    unfold pyRound
    rw [hround]
    norm_num
  have hfmt : formatFixed (1 / 100 : ℚ) 2 = "0.01" := by
    have h1 : roundHalfEven ((1 / 100 : ℚ) * 10 ^ 2) = (1 : Int) := by
      rw [show (1 / 100 : ℚ) * 10 ^ 2 = (((1 : Int)) : ℚ) from by norm_num,
        roundHalfEven_intCast]
    simp only [formatFixed, h1]
    rfl
  have hbuild : build_generator "float"
      [("min", CfgVal.float (3 / 500)), ("max", CfgVal.float (7 / 1000)),
       ("decimals", CfgVal.int 2)] 2025
      = Gen.float (CfgVal.float (3 / 500)) (CfgVal.float (7 / 1000)) (CfgVal.int 2) := by
    simp [build_generator, cfgGetD, List.lookup]
  have hrun : runGen (build_generator "float"
      [("min", CfgVal.float (3 / 500)), ("max", CfgVal.float (7 / 1000)),
       ("decimals", CfgVal.int 2)] 2025) (fun _ => 0)
      = some (formatFixed (rand_float (3 / 500) (7 / 1000) 2 0) 2) := by
    rw [hbuild]
    simp [runGen, asFloat, asInt]
  have hparse : parseFixed "0.01" = 1 / 100 := by
    have hstep : parseFixed "0.01" = (charsToNat ['0'] : ℚ) +
        (charsToNat ['0', '1'] : ℚ) / 10 ^ 2 := rfl
    have hc0 : charsToNat ['0'] = 0 := by decide
    have hc1 : charsToNat ['0', '1'] = 1 := by decide
    rw [hstep, hc0, hc1]
    norm_num
  refine ⟨by norm_num, ?_, hparse, by norm_num⟩
  rw [hrun, hval, hfmt]

/-! ### C6 helper lemmas: the day-of-year conversion -/

theorem monthLengths_length (y : Int) : (monthLengths y).length = 12 := rfl

theorem monthLengths_sum (y : Int) : (monthLengths y).sum = daysInYear y := by
  unfold monthLengths daysInYear
  cases isLeap y <;> simp

theorem monthLengths_pos (y : Int) : ∀ len ∈ monthLengths y, 0 < len := by
  intro len hl
  unfold monthLengths at hl
  by_cases hL : isLeap y = true
  · rw [if_pos hL] at hl
    fin_cases hl <;> norm_num
  · rw [if_neg hL] at hl
    fin_cases hl <;> norm_num

theorem dayToMD_fst_pos (ms : List Nat) (d : Nat) : 1 ≤ (dayToMD ms d).1 := by
  cases ms with
  | nil => simp [dayToMD]
  | cons len rest =>
    simp only [dayToMD]
    split_ifs <;> simp

/-- On a valid day offset, `dayToMD` produces a month within the list and a
day within that month's length. -/
theorem dayToMD_valid (ms : List Nat) (d : Nat) (hd : d < ms.sum) :
    1 ≤ (dayToMD ms d).1 ∧ (dayToMD ms d).1 ≤ ms.length ∧
    1 ≤ (dayToMD ms d).2 ∧ (dayToMD ms d).2 ≤ ms.getD ((dayToMD ms d).1 - 1) 0 := by
  induction ms generalizing d with
  | nil => simp at hd
  | cons len rest ih =>
    by_cases hl : d < len
    · simp only [dayToMD, if_pos hl]
      refine ⟨le_refl 1, by simp, by omega, ?_⟩
      simpa using hl
    · have hd' : d - len < rest.sum := by
        simp only [List.sum_cons] at hd
        omega
      obtain ⟨ih1, ih2, ih3, ih4⟩ := ih (d - len) hd'
      obtain ⟨k, hk⟩ : ∃ k, (dayToMD rest (d - len)).1 = k + 1 :=
        ⟨(dayToMD rest (d - len)).1 - 1, by omega⟩
      simp only [dayToMD, if_neg hl]
      refine ⟨by omega, by simp; omega, ih3, ?_⟩
      simp only [Nat.add_sub_cancel]
      rw [hk, List.getD_cons_succ]
      rw [hk] at ih4
      simpa using ih4

/-- Distinct valid day offsets give distinct dates. -/
theorem dayToMD_inj (ms : List Nat) (d1 d2 : Nat) (h1 : d1 < ms.sum) (h2 : d2 < ms.sum)
    (heq : dayToMD ms d1 = dayToMD ms d2) : d1 = d2 := by
  induction ms generalizing d1 d2 with
  | nil => simp at h1
  | cons len rest ih =>
    have hralt1 : d1 - len < rest.sum ∨ d1 < len := by
      simp only [List.sum_cons] at h1
      omega
    by_cases c1 : d1 < len <;> by_cases c2 : d2 < len
    · simp only [dayToMD, if_pos c1, if_pos c2, Prod.mk.injEq] at heq
      omega
    · simp only [dayToMD, if_pos c1, if_neg c2, Prod.mk.injEq] at heq
      have := dayToMD_fst_pos rest (d2 - len)
      omega
    · simp only [dayToMD, if_neg c1, if_pos c2, Prod.mk.injEq] at heq
      have := dayToMD_fst_pos rest (d1 - len)
      omega
    · simp only [dayToMD, if_neg c1, if_neg c2, Prod.mk.injEq] at heq
      have hsum : len + rest.sum = (len :: rest).sum := by simp
      have hrec : dayToMD rest (d1 - len) = dayToMD rest (d2 - len) := by
        have h1' := heq.1
        have h2' := heq.2
        exact Prod.ext (by omega) h2'
      have := ih (d1 - len) (d2 - len) (by omega) (by omega) hrec
      omega

/-- Every valid (month, day) pair is hit by some day offset. -/
theorem dayToMD_surj (ms : List Nat) (m dd : Nat) (hm1 : 1 ≤ m) (hm2 : m ≤ ms.length)
    (hd1 : 1 ≤ dd) (hd2 : dd ≤ ms.getD (m - 1) 0) :
    ∃ d, d < ms.sum ∧ dayToMD ms d = (m, dd) := by
  induction ms generalizing m with
  | nil => simp at hm2; omega
  | cons len rest ih =>
    by_cases hm : m = 1
    · subst hm
      have hlen : dd ≤ len := by simpa using hd2
      refine ⟨dd - 1, ?_, ?_⟩
      · simp only [List.sum_cons]
        omega
      · simp only [dayToMD, if_pos (show dd - 1 < len from by omega)]
        have : dd - 1 + 1 = dd := by omega
        rw [this]
    · obtain ⟨k, hk⟩ : ∃ k, m = k + 2 := ⟨m - 2, by omega⟩
      have hm2' : k + 1 ≤ rest.length := by
        rw [hk] at hm2
        simpa using hm2
      have hd2' : dd ≤ rest.getD k 0 := by
        rw [hk] at hd2
        simpa [List.getD_cons_succ] using hd2
      obtain ⟨d, hds, hdm⟩ := ih (k + 1) (by omega) hm2' hd2'
      refine ⟨len + d, ?_, ?_⟩
      · simp only [List.sum_cons]
        omega
      · simp only [dayToMD, if_neg (show ¬(len + d < len) from by omega)]
        rw [show len + d - len = d from by omega, hdm, hk]

theorem daysInYear_pos (y : Int) : 0 < daysInYear y := by
  unfold daysInYear
  split_ifs <;> norm_num

/-- Claim C6: for `yearStart ≤ yearEnd`, (1) every string the date generator
produces is a valid calendar date `YYYY-MM-DD` with the year in range and the
day within the month's length — in particular Feb 29 only in leap years;
(2) every valid calendar day of every representable year in range is
attainable by some draw, and (3) distinct day offsets of a year give
distinct dates — together with the uniform `randint` draw this makes the
date uniform over the chosen year's calendar days; (4) every string the
date-time generator produces is a valid date in range extended with a valid
`HH:MM:SS` from a uniform second offset within the year. -/
theorem date_generator_valid (ys ye : Int) (h : ys ≤ ye) :
    (∀ r1 r2 s, rand_date ys ye r1 r2 = some s →
      ∃ y : Int, ∃ m d : Nat, ys ≤ y ∧ y ≤ ye ∧ 1 ≤ m ∧ m ≤ 12 ∧ 1 ≤ d ∧
        d ≤ daysInMonth y m ∧ (isLeap y = false → ¬(m = 2 ∧ d = 29)) ∧
        s = formatDate y m d) ∧
    (∀ y : Int, ∀ m d : Nat, ys ≤ y → y ≤ ye → 1 ≤ y → y ≤ 9999 → 1 ≤ m → m ≤ 12 →
      1 ≤ d → d ≤ daysInMonth y m →
      ∃ r1 r2, rand_date ys ye r1 r2 = some (formatDate y m d)) ∧
    (∀ y : Int, ∀ k1 k2 : Nat, k1 < daysInYear y → k2 < daysInYear y →
      dayToMD (monthLengths y) k1 = dayToMD (monthLengths y) k2 → k1 = k2) ∧
    (∀ r1 r2 s, rand_datetime ys ye r1 r2 = some s →
      ∃ y : Int, ∃ m d hh mi ss : Nat, ys ≤ y ∧ y ≤ ye ∧ 1 ≤ m ∧ m ≤ 12 ∧ 1 ≤ d ∧
        d ≤ daysInMonth y m ∧ hh < 24 ∧ mi < 60 ∧ ss < 60 ∧
        s = formatDateTime y m d hh mi ss) := by
  have hmod : (0 : Int) < ye - ys + 1 := by omega
  have hyb1 : ∀ r1 : Nat, ys ≤ ys + (r1 : Int) % (ye - ys + 1) := by
    intro r1
    have := Int.emod_nonneg ((r1 : Nat) : Int) (by omega : ye - ys + 1 ≠ 0)
    omega
  have hyb2 : ∀ r1 : Nat, ys + (r1 : Int) % (ye - ys + 1) ≤ ye := by
    intro r1
    have := Int.emod_lt_of_pos ((r1 : Nat) : Int) hmod
    omega
  refine ⟨?_, ?_, ?_, ?_⟩
  · intro r1 r2 s hs
    rw [rand_date, randint, if_pos h] at hs
    simp only [Option.bind_eq_bind, Option.some_bind] at hs
    set y := ys + (r1 : Int) % (ye - ys + 1) with hydef
    by_cases hg : y < 1 ∨ 9999 < y
    · rw [if_pos hg] at hs
      exact absurd hs (by simp)
    · rw [if_neg hg] at hs
      have hdy := daysInYear_pos y
      have hdy0 : (0 : Int) ≤ (daysInYear y : Int) - 1 := by
        have : (1 : Int) ≤ (daysInYear y : Int) := by exact_mod_cast hdy
        omega
      rw [randint, if_pos hdy0] at hs
      simp only [Option.bind_eq_bind, Option.some_bind, Option.pure_def] at hs
      have hmodd : (daysInYear y : Int) - 1 - 0 + 1 = (daysInYear y : Int) := by ring
      rw [hmodd] at hs
      set k := ((0 : Int) + (r2 : Int) % (daysInYear y : Int)).toNat with hkdef
      have hklt : k < daysInYear y := by
        have h1 := Int.emod_nonneg ((r2 : Nat) : Int)
          (by exact_mod_cast Nat.pos_iff_ne_zero.mp hdy : ((daysInYear y : Nat) : Int) ≠ 0)
        have h2 := Int.emod_lt_of_pos ((r2 : Nat) : Int)
          (by exact_mod_cast hdy : (0 : Int) < ((daysInYear y : Nat) : Int))
        omega
      obtain ⟨hv1, hv2, hv3, hv4⟩ := dayToMD_valid (monthLengths y) k
        (by rw [monthLengths_sum]; exact hklt)
      refine ⟨y, (dayToMD (monthLengths y) k).1, (dayToMD (monthLengths y) k).2,
        hyb1 r1, hyb2 r1, hv1, by rw [← monthLengths_length y]; exact hv2, hv3, hv4,
        ?_, (Option.some.inj hs).symm⟩
      rintro hleap ⟨hm2, hd29⟩
      rw [hm2] at hv4
      have h28 : (monthLengths y).getD (2 - 1) 0 = 28 := by
        simp [monthLengths, hleap]
      rw [h28] at hv4
      omega
  · intro y m d hys hye hy1' hy9999 hm1 hm12 hd1 hd2
    obtain ⟨kk, hks, hkm⟩ := dayToMD_surj (monthLengths y) m d hm1
      (by rw [monthLengths_length]; exact hm12) hd1 hd2
    refine ⟨(y - ys).toNat, kk, ?_⟩
    rw [rand_date, randint, if_pos h]
    simp only [Option.bind_eq_bind, Option.some_bind]
    have hyv : ys + (((y - ys).toNat : Nat) : Int) % (ye - ys + 1) = y := by
      rw [Int.toNat_of_nonneg (by omega : (0 : Int) ≤ y - ys),
        Int.emod_eq_of_lt (by omega) (by omega)]
      omega
    rw [hyv, if_neg (by push_neg; exact ⟨hy1', hy9999⟩ : ¬(y < 1 ∨ 9999 < y))]
    have hdy := daysInYear_pos y
    have hdy0 : (0 : Int) ≤ (daysInYear y : Int) - 1 := by
      have : (1 : Int) ≤ (daysInYear y : Int) := by exact_mod_cast hdy
      omega
    rw [randint, if_pos hdy0]
    simp only [Option.bind_eq_bind, Option.some_bind, Option.pure_def]
    have hks' : kk < daysInYear y := by
      rw [← monthLengths_sum]
      exact hks
    have hkv : ((0 : Int) + (kk : Int) % ((daysInYear y : Int) - 1 - 0 + 1)).toNat = kk := by
      have hmodd : (daysInYear y : Int) - 1 - 0 + 1 = (daysInYear y : Int) := by ring
      rw [hmodd, Int.emod_eq_of_lt (by positivity) (by exact_mod_cast hks')]
      omega
    rw [hkv, hkm]
  · intro y k1 k2 h1 h2 heq
    exact dayToMD_inj (monthLengths y) k1 k2
      (by rw [monthLengths_sum]; exact h1) (by rw [monthLengths_sum]; exact h2) heq
  · intro r1 r2 s hs
    rw [rand_datetime, randint, if_pos h] at hs
    simp only [Option.bind_eq_bind, Option.some_bind] at hs
    set y := ys + (r1 : Int) % (ye - ys + 1) with hydef
    by_cases hg : y < 1 ∨ 9999 < y
    · rw [if_pos hg] at hs
      exact absurd hs (by simp)
    · rw [if_neg hg] at hs
      have hdy := daysInYear_pos y
      have htot0 : (0 : Int) ≤ (daysInYear y : Int) * 86400 - 1 := by
        have : (1 : Int) ≤ (daysInYear y : Int) := by exact_mod_cast hdy
        nlinarith
      rw [randint, if_pos htot0] at hs
      simp only [Option.bind_eq_bind, Option.some_bind, Option.pure_def] at hs
      have hmodd : (daysInYear y : Int) * 86400 - 1 - 0 + 1
          = (daysInYear y : Int) * 86400 := by ring
      rw [hmodd] at hs
      set o := ((0 : Int) + (r2 : Int) % ((daysInYear y : Int) * 86400)).toNat with hodef
      have holt : o < daysInYear y * 86400 := by
        have hpos : (0 : Int) < (daysInYear y : Int) * 86400 := by
          have : (1 : Int) ≤ (daysInYear y : Int) := by exact_mod_cast hdy
          nlinarith
        have h1 := Int.emod_nonneg ((r2 : Nat) : Int) (by omega : (daysInYear y : Int) * 86400 ≠ 0)
        have h2 := Int.emod_lt_of_pos ((r2 : Nat) : Int) hpos
        omega
      have hday : o / 86400 < daysInYear y := by omega
      obtain ⟨hv1, hv2, hv3, hv4⟩ := dayToMD_valid (monthLengths y) (o / 86400)
        (by rw [monthLengths_sum]; exact hday)
      exact ⟨y, (dayToMD (monthLengths y) (o / 86400)).1,
        (dayToMD (monthLengths y) (o / 86400)).2,
        o % 86400 / 3600, o % 86400 % 3600 / 60, o % 86400 % 60,
        hyb1 r1, hyb2 r1, hv1, by rw [← monthLengths_length y]; exact hv2, hv3, hv4,
        by omega, by omega, by omega, (Option.some.inj hs).symm⟩

/-- Witness for C6 at the default year range 2015-2025, draws 0: the
generator yields `"2015-01-01"`, which the theorem certifies as a valid
in-range calendar date. -/
theorem date_generator_valid_witness :
    (2015 : Int) ≤ 2025 ∧ rand_date 2015 2025 0 0 = some "2015-01-01" ∧
    ∃ y : Int, ∃ m d : Nat, (2015 : Int) ≤ y ∧ y ≤ 2025 ∧ 1 ≤ m ∧ m ≤ 12 ∧ 1 ≤ d ∧
      d ≤ daysInMonth y m ∧ (isLeap y = false → ¬(m = 2 ∧ d = 29)) ∧
      "2015-01-01" = formatDate y m d :=
  ⟨by norm_num, by decide,
   (date_generator_valid 2015 2025 (by norm_num)).1 0 0 "2015-01-01" (by decide)⟩

end GeradorCsv
